import Mathlib

/-!
# Verification of `STIXToCollection.stix_to_collection`
(`mitreattack/collections/stix_to_collection.py`)

Shallow embedding of the single transformation function of the repository:
it enhances a STIX bundle with a synthesized `x-mitre-collection` object.

Modelling decisions:
* A STIX object is a Python dict; the function reads/writes only the keys
  below, so we model an object as a structure with one `Option` field per
  key the code touches (`none` = key absent) plus an opaque `other`
  association list for all keys the code never reads.
* The external upgrade step (`stix2elevator.stix_stepper.step_bundle`) is an
  external library collaborator; it is passed in as a function
  `upgrade : Bundle → Except String Bundle` (`Except.error` = the library
  raised, the string being the message `e` of the caught exception).
* `datetime.now()` is the local wall-clock reading supplied by the
  environment; it is passed in as a `DateTime` value.  `uuid4()` is likewise
  passed in as a string.
* `print` diagnostics are collected structurally in a `List Diag`.
* An *uncaught* Python exception (the unguarded `obj["type"]` lookups) is
  `Except.error (PyExn.keyError "type")`; the caught `KeyError` around the
  `x_mitre_contents` append is converted to the `None` result exactly as in
  the source.
-/

set_option autoImplicit false

namespace StixToCollection

/-- One entry of `x_mitre_contents`: the dict
`dict(object_ref=obj["id"], object_modified=obj["modified"])` built at
line 80 of the source. -/
structure ContentEntry where
  object_ref : String
  object_modified : String
deriving DecidableEq, Repr, Inhabited

/-- A STIX object (a Python dict).  One `Option` field per key the code
reads or writes (`none` = the key is absent from the dict); `other` holds
all remaining key/value pairs, which the code never inspects. -/
structure StixObject where
  type : Option String := none
  id : Option String := none
  spec_version : Option String := none
  name : Option String := none
  x_mitre_version : Option String := none
  x_mitre_attack_spec_version : Option String := none
  description : Option String := none
  created_by_ref : Option String := none
  created : Option String := none
  modified : Option String := none
  object_marking_refs : Option (List String) := none
  x_mitre_contents : Option (List ContentEntry) := none
  other : List (String × String) := []
deriving DecidableEq, Repr, Inhabited

/-- A STIX bundle: the `objects` sequence (order meaningful), the optional
`spec_version` key, and the remaining uninspected keys. -/
structure Bundle where
  spec_version : Option String := none
  objects : List StixObject := []
  other : List (String × String) := []
deriving DecidableEq, Repr, Inhabited

/-- An uncaught Python exception escaping the function. -/
inductive PyExn where
  | keyError (key : String)
deriving DecidableEq, Repr

/-- The `print` diagnostics of the source, modelled structurally:
* `note20upgrade` / `note20fields`: the two `[NOTE]` prints of the 2.0
  upgrade branch (lines 35-48);
* `errUpgrade e`: the `[ERROR]` prints of the upgrade `except` branch,
  carrying the underlying cause `e` (lines 50-53);
* `errVersion v`: the unsupported-spec-version `[ERROR]` print, carrying
  `working_bundle.get("spec_version", "[NOT FOUND]")` (lines 55-58);
* `errMissingField obj key`: the `[ERROR]` print of the caught `KeyError`,
  naming the offending object and the missing key (line 83);
* `noteMultipleCreatedByRef first second`: the `[NOTE]` print for
  conflicting `created_by_ref` values (lines 92-96). -/
inductive Diag where
  | note20upgrade
  | note20fields
  | errUpgrade (e : String)
  | errVersion (v : String)
  | errMissingField (obj : StixObject) (key : String)
  | noteMultipleCreatedByRef (first second : String)
deriving DecidableEq, Repr

/-- The module constant `X_MITRE_SPEC_VERSION` (line 14). -/
def X_MITRE_SPEC_VERSION : String := "2.1.0"

/-- The default description substituted when `not description` (line 61). -/
def default_description : String :=
  "This collection was autogenerated by STIXToCollection, as part of mitreattack-python"

/-- Source lines 60-61, `if not description: description = ...`: a missing
or empty (falsy) description is replaced by the default. -/
def resolve_description : Option String → String
  | none => default_description
  | some s => if s = "" then default_description else s

/-- A local wall-clock reading, as returned by `datetime.now()` (naive
local time: no timezone attached). -/
structure DateTime where
  year : Nat
  month : Nat
  day : Nat
  hour : Nat
  minute : Nat
  second : Nat
  microsecond : Nat
deriving DecidableEq, Repr, Inhabited

/-- Zero-pad the decimal representation of `n` to width `w`, as Python
`strftime` does for each numeric directive. -/
def padNum (w n : Nat) : String :=
  let s := toString n
  String.mk (List.replicate (w - s.length) '0') ++ s

/-- Source line 59, `t.strftime("%Y-%m-%dT%H:%M:%S.%fZ")`: each directive
is the zero-padded field value; the trailing `Z` is a literal character of
the format string. -/
def strftime_mitre (t : DateTime) : String :=
  padNum 4 t.year ++ "-" ++ padNum 2 t.month ++ "-" ++ padNum 2 t.day ++ "T" ++
    padNum 2 t.hour ++ ":" ++ padNum 2 t.minute ++ ":" ++ padNum 2 t.second ++ "." ++
    padNum 6 t.microsecond ++ "Z"

/-- The `raw_collection` dict literal (lines 63-75). -/
def init_collection (uuid name version descr time : String) : StixObject :=
  { type := some "x-mitre-collection"
    id := some ("x-mitre-collection--" ++ uuid)
    spec_version := some "2.1"
    name := some name
    x_mitre_version := some version
    x_mitre_attack_spec_version := some X_MITRE_SPEC_VERSION
    description := some descr
    created_by_ref := some ""
    created := some time
    modified := some time
    object_marking_refs := some []
    x_mitre_contents := some []
    other := [] }

/-- The first loop (lines 30-32): scan the objects for an existing
collection.  `obj["type"]` is an unguarded lookup, so an object without a
`type` key raises `KeyError` before the scan can continue. -/
def findCollection : List StixObject → Except PyExn Bool
  | [] => Except.ok false
  | o :: rest =>
    match o.type with
    | none => Except.error (PyExn.keyError "type")
    | some t => if t = "x-mitre-collection" then Except.ok true else findCollection rest

/-- Source lines 86-88, `if omr not in
raw_collection["object_marking_refs"]: ...append(omr)`: append one marking
reference unless already present. -/
def dedup_insert (acc : List String) (m : String) : List String :=
  if m ∈ acc then acc else acc ++ [m]

/-- The inner `for omr in obj["object_marking_refs"]` loop (lines 86-88)
run over a whole list of references. -/
def dedup_from (acc : List String) (l : List String) : List String :=
  l.foldl dedup_insert acc

/-- The aggregation loop (lines 76-98), threading the mutable
`raw_collection` dict through the objects.  Returns the printed
diagnostics together with either the completed `raw_collection`
(`Except.ok (some _)`), the `None`-returning abort on a caught `KeyError`
for `id`/`modified` (`Except.ok none`), or an uncaught `KeyError` from the
unguarded `obj["type"]` lookup (`Except.error _`). -/
def process_objects (raw : StixObject) : List StixObject → List Diag × Except PyExn (Option StixObject)
  | [] => ([], Except.ok (some raw))
  | obj :: rest =>
    match obj.type with
    | none => ([], Except.error (PyExn.keyError "type"))
    | some t =>
      if t = "marking-definition" then process_objects raw rest
      else
        match obj.id, obj.modified with
        | some i, some m =>
          let entry : ContentEntry := { object_ref := i, object_modified := m }
          let raw1 := { raw with
            x_mitre_contents := some (raw.x_mitre_contents.getD [] ++ [entry]) }
          let raw2 :=
            match obj.object_marking_refs with
            | none => raw1
            | some omrs => { raw1 with
                object_marking_refs := some (dedup_from (raw1.object_marking_refs.getD []) omrs) }
          match obj.created_by_ref with
          | none => process_objects raw2 rest
          | some c =>
            if c ≠ raw2.created_by_ref.getD "" then
              if raw2.created_by_ref.getD "" ≠ "" then
                let res := process_objects raw2 rest
                (Diag.noteMultipleCreatedByRef (raw2.created_by_ref.getD "") c :: res.1, res.2)
              else
                process_objects { raw2 with created_by_ref := some c } rest
            else process_objects raw2 rest
        | _, _ =>
          ([Diag.errMissingField obj (if obj.id.isNone then "id" else "modified")], Except.ok none)

/-- The function `STIXToCollection.stix_to_collection` (lines 20-101).  The externally
supplied inputs are the upgrade collaborator (`step_bundle`), the local
wall-clock reading (`datetime.now()`) and the generated uuid (`uuid4()`).
`copy.deepcopy` has value semantics here (the heap variant
`stix_to_collection_heap` below makes the aliasing behaviour explicit).
Result: printed diagnostics paired with `Except.ok (some b)` (a returned
bundle), `Except.ok none` (the function returned `None`) or
`Except.error e` (an uncaught exception). -/
def stix_to_collection (upgrade : Bundle → Except String Bundle) (now : DateTime) (uuid : String)
    (bundle : Bundle) (name version : String) (description : Option String) :
    List Diag × Except PyExn (Option Bundle) :=
  let working_bundle := bundle
  match findCollection working_bundle.objects with
  | Except.error e => ([], Except.error e)
  | Except.ok true => ([], Except.ok (some bundle))
  | Except.ok false =>
    let v := bundle.spec_version.getD ""
    let upgraded : List Diag × Option Bundle :=
      if v = "2.0" then
        match upgrade working_bundle with
        | Except.ok wb2 => ([Diag.note20upgrade, Diag.note20fields], some wb2)
        | Except.error e => ([Diag.note20upgrade, Diag.errUpgrade e], none)
      else ([], some working_bundle)
    match upgraded with
    | (ds1, none) => (ds1, Except.ok none)
    | (ds1, some wb) =>
      let ds2 : List Diag :=
        if v ≠ "2.1" ∧ v ≠ "2.0" then [Diag.errVersion (wb.spec_version.getD "[NOT FOUND]")]
        else []
      let time := strftime_mitre now
      let descr := resolve_description description
      let raw := init_collection uuid name version descr time
      match process_objects raw wb.objects with
      | (ds3, Except.error e) => (ds1 ++ ds2 ++ ds3, Except.error e)
      | (ds3, Except.ok none) => (ds1 ++ ds2 ++ ds3, Except.ok none)
      | (ds3, Except.ok (some rawF)) =>
        (ds1 ++ ds2 ++ ds3, Except.ok (some { wb with objects := rawF :: wb.objects }))

/-- The tail phase of the function (lines 59-101) in the heap model: read
the working bundle at reference `rw`, build `raw_collection`, run the
aggregation loop, and perform the single heap write of the function —
`working_bundle["objects"].insert(0, raw_collection)` — on the cell `rw`
before returning a reference to it. -/
def build_phase (now : DateTime) (uuid name version : String) (description : Option String)
    (heap : List Bundle) (rw : Nat) : List Bundle × Except PyExn (Option Nat) :=
  let wb := heap.getD rw default
  let raw := init_collection uuid name version (resolve_description description) (strftime_mitre now)
  match process_objects raw wb.objects with
  | (_, Except.error e) => (heap, Except.error e)
  | (_, Except.ok none) => (heap, Except.ok none)
  | (_, Except.ok (some rawF)) =>
    (heap.set rw { wb with objects := rawF :: wb.objects }, Except.ok (some rw))

/-- The function `stix_to_collection` with Python's aliasing made explicit: bundles live
on a heap (`List Bundle`), the caller's variable is the reference `r`.
`copy.deepcopy(bundle)` (line 29) allocates a fresh cell holding a copy;
`working_bundle = step_bundle(working_bundle)` rebinds the local name to the
fresh bundle returned by the library; the only write to an existing cell is
the `insert(0, ...)` at line 100, performed on the copy's cell.  The result
is the final heap and the returned reference (or `none` / an exception). -/
def stix_to_collection_heap (upgrade : Bundle → Except String Bundle) (now : DateTime)
    (uuid : String) (heap : List Bundle) (r : Nat) (name version : String)
    (description : Option String) : List Bundle × Except PyExn (Option Nat) :=
  let bundle := heap.getD r default
  let heap1 := heap ++ [bundle]
  let rw := heap.length
  match findCollection bundle.objects with
  | Except.error e => (heap1, Except.error e)
  | Except.ok true => (heap1, Except.ok (some r))
  | Except.ok false =>
    if bundle.spec_version.getD "" = "2.0" then
      match upgrade (heap1.getD rw default) with
      | Except.error _ => (heap1, Except.ok none)
      | Except.ok wb2 => build_phase now uuid name version description (heap1 ++ [wb2]) heap1.length
    else build_phase now uuid name version description heap1 rw

/-! ## Specification-side characterizations

The following definitions restate, in the spec's words, what the
aggregation loop is claimed to produce; the theorems below compare them
with the behaviour of the source transcription above. -/

/-- Spec side (claim C1): one `{object_ref, object_modified}` entry per
non-`marking-definition` object, in bundle order. -/
def spec_contents : List StixObject → List ContentEntry
  | [] => []
  | o :: rest =>
    if o.type = some "marking-definition" then spec_contents rest
    else { object_ref := o.id.getD "", object_modified := o.modified.getD "" } :: spec_contents rest

/-- Spec side (claim C5): the marking references of the
non-`marking-definition` objects, concatenated in scan order. -/
def flat_markings : List StixObject → List String
  | [] => []
  | o :: rest =>
    if o.type = some "marking-definition" then flat_markings rest
    else o.object_marking_refs.getD [] ++ flat_markings rest

/-- The evolution of `raw_collection["created_by_ref"]` over the scan:
adopted only while still empty, kept otherwise. -/
def spec_cbr (cur : String) : List StixObject → String
  | [] => cur
  | o :: rest =>
    if o.type = some "marking-definition" then spec_cbr cur rest
    else
      match o.created_by_ref with
      | none => spec_cbr cur rest
      | some c => spec_cbr (if c ≠ cur ∧ cur = "" then c else cur) rest

/-- The `(first encountered, conflicting)` pairs for which the
multiple-`created_by_ref` diagnostic fires during the scan. -/
def cbr_conflicts (cur : String) : List StixObject → List (String × String)
  | [] => []
  | o :: rest =>
    if o.type = some "marking-definition" then cbr_conflicts cur rest
    else
      match o.created_by_ref with
      | none => cbr_conflicts cur rest
      | some c =>
        if c ≠ cur ∧ cur ≠ "" then (cur, c) :: cbr_conflicts cur rest
        else cbr_conflicts (if c ≠ cur ∧ cur = "" then c else cur) rest

/-- Spec side (claim C6): the first `created_by_ref` value of a
non-`marking-definition` object that differs from the empty string
(empty string if there is none). -/
def first_created_by_ref : List StixObject → String
  | [] => ""
  | o :: rest =>
    if o.type = some "marking-definition" then first_created_by_ref rest
    else
      match o.created_by_ref with
      | none => first_created_by_ref rest
      | some c => if c ≠ "" then c else first_created_by_ref rest

/-- Closed form of the completed `raw_collection` after a successful
aggregation pass over `objs`. -/
def built_collection (uuid name version descr time : String) (objs : List StixObject) : StixObject :=
  { type := some "x-mitre-collection"
    id := some ("x-mitre-collection--" ++ uuid)
    spec_version := some "2.1"
    name := some name
    x_mitre_version := some version
    x_mitre_attack_spec_version := some X_MITRE_SPEC_VERSION
    description := some descr
    created_by_ref := some (spec_cbr "" objs)
    created := some time
    modified := some time
    object_marking_refs := some (dedup_from [] (flat_markings objs))
    x_mitre_contents := some (spec_contents objs)
    other := [] }

/-- The `created` field of the first object of a returned bundle
(`none` when no bundle was returned). -/
def created_of_result (res : List Diag × Except PyExn (Option Bundle)) : Option String :=
  match res.2 with
  | Except.ok (some b) => (b.objects.headD default).created
  | _ => none

/-- The `modified` field of the first object of a returned bundle
(`none` when no bundle was returned). -/
def modified_of_result (res : List Diag × Except PyExn (Option Bundle)) : Option String :=
  match res.2 with
  | Except.ok (some b) => (b.objects.headD default).modified
  | _ => none

/-! ## Concrete environments and bundles used to evaluate the function -/

/-- An upgrade collaborator that succeeds without changing the bundle. -/
def okUpgrade : Bundle → Except String Bundle := fun b => Except.ok b

/-- An upgrade collaborator that raises (as `step_bundle` may). -/
def failUpgrade : Bundle → Except String Bundle := fun _ => Except.error "step failure"

/-- A `datetime.now()` reading: the local wall clock of a UTC+1 environment
at 13:00 local time. -/
def sample_now : DateTime := ⟨2026, 1, 1, 13, 0, 0, 0⟩

/-- The simultaneous UTC clock reading of the same environment (one hour
behind the local clock of `sample_now`). -/
def sample_utc : DateTime := ⟨2026, 1, 1, 12, 0, 0, 0⟩

/-- A collection object like those the function itself produces. -/
def w_collection_obj : StixObject :=
  { type := some "x-mitre-collection", id := some "x-mitre-collection--0", modified := some "t0" }

/-- An object with no `type` key. -/
def w_untyped_obj : StixObject := { id := some "x--1", modified := some "t1" }

/-- A mixed content bundle: three content objects with markings and
authors, one marking-definition. -/
def w1_bundle : Bundle :=
  { spec_version := some "2.1"
    objects :=
      [{ type := some "attack-pattern", id := some "ap--1", modified := some "t1",
         object_marking_refs := some ["m1"], created_by_ref := some "a" },
       { type := some "marking-definition", id := some "md--1", modified := some "t2",
         object_marking_refs := some ["m9"], created_by_ref := some "z" },
       { type := some "intrusion-set", id := some "is--1", modified := some "t3",
         object_marking_refs := some ["m1", "m2"], created_by_ref := some "b" },
       { type := some "malware", id := some "mw--1", modified := some "t4",
         object_marking_refs := some ["m2"], created_by_ref := some "a" }] }

/-- A bundle already carrying a collection object. -/
def w3_bundle : Bundle :=
  { spec_version := some "2.0"
    objects := [w_collection_obj,
      { type := some "attack-pattern", id := some "ap--1", modified := some "t1" }] }

/-- A bundle whose second content object lacks `modified`. -/
def w4_bundle : Bundle :=
  { spec_version := some "2.1"
    objects := [{ type := some "attack-pattern", id := some "ap--1", modified := some "t1" },
      { type := some "course-of-action", id := some "ca--1" }] }

/-- The specification's marking-dedup example: `object_marking_refs` =
`[m1]`, `[m1, m2]`, `[m2]` over three content objects. -/
def w5_bundle : Bundle :=
  { spec_version := some "2.1"
    objects :=
      [{ type := some "attack-pattern", id := some "o--1", modified := some "t1",
         object_marking_refs := some ["m1"] },
       { type := some "attack-pattern", id := some "o--2", modified := some "t2",
         object_marking_refs := some ["m1", "m2"] },
       { type := some "attack-pattern", id := some "o--3", modified := some "t3",
         object_marking_refs := some ["m2"] }] }

/-- The specification's authorship example: `created_by_ref` `a` then `b`. -/
def w6_bundle : Bundle :=
  { spec_version := some "2.1"
    objects :=
      [{ type := some "attack-pattern", id := some "o--1", modified := some "t1",
         created_by_ref := some "a" },
       { type := some "attack-pattern", id := some "o--2", modified := some "t2",
         created_by_ref := some "b" }] }

/-- A plain 2.0 bundle with one content object. -/
def w7_bundle : Bundle :=
  { spec_version := some "2.0"
    objects := [{ type := some "attack-pattern", id := some "ap--1", modified := some "t1" }] }

/-- A bundle with an unsupported spec version. -/
def w8_bundle : Bundle :=
  { spec_version := some "3.0"
    objects := [{ type := some "attack-pattern", id := some "ap--1", modified := some "t1" }] }

/-- A minimal well-formed 2.1 bundle. -/
def w9_bundle : Bundle := { spec_version := some "2.1", objects := [] }

/-- A bundle in which a collection object precedes an object lacking
`type`. -/
def w10_bundle : Bundle :=
  { spec_version := some "2.1", objects := [w_collection_obj, w_untyped_obj] }

/-- A collection-free bundle containing an object lacking `type`. -/
def w10b_bundle : Bundle :=
  { spec_version := some "2.1", objects := [w_untyped_obj] }

/-! ## Lemmas about the collection scan -/

theorem findCollection_eq_false (objs : List StixObject)
    (hty : ∀ o ∈ objs, o.type.isSome)
    (hnc : ∀ o ∈ objs, o.type ≠ some "x-mitre-collection") :
    findCollection objs = Except.ok false := by
  induction objs with
  | nil => rfl
  | cons o rest ih =>
    obtain ⟨t, hot⟩ := Option.isSome_iff_exists.1 (hty o (by simp))
    have hne : t ≠ "x-mitre-collection" := by
      intro h; exact hnc o (by simp) (by rw [hot, h])
    simp only [findCollection, hot, if_neg hne]
    exact ih (fun o ho => hty o (by simp [ho])) (fun o ho => hnc o (by simp [ho]))

theorem findCollection_eq_true (objs : List StixObject)
    (hty : ∀ o ∈ objs, o.type.isSome)
    (hc : ∃ o ∈ objs, o.type = some "x-mitre-collection") :
    findCollection objs = Except.ok true := by
  induction objs with
  | nil => simp at hc
  | cons o rest ih =>
    obtain ⟨t, hot⟩ := Option.isSome_iff_exists.1 (hty o (by simp))
    by_cases h : t = "x-mitre-collection"
    · simp [findCollection, hot, h]
    · simp only [findCollection, hot, if_neg h]
      rcases hc with ⟨o', ho', hco'⟩
      rcases List.mem_cons.1 ho' with rfl | hmem
      · rw [hot] at hco'; exact absurd (Option.some_injective _ hco') h
      · exact ih (fun o ho => hty o (by simp [ho])) ⟨o', hmem, hco'⟩

theorem findCollection_keyError (l1 l2 : List StixObject) (o : StixObject)
    (hno : o.type = none)
    (hpre : ∀ o' ∈ l1, o'.type ≠ some "x-mitre-collection") :
    findCollection (l1 ++ o :: l2) = Except.error (PyExn.keyError "type") := by
  induction l1 with
  | nil => simp [findCollection, hno]
  | cons o' rest ih =>
    match ho' : o'.type with
    | none => simp [findCollection, ho']
    | some t =>
      have hne : t ≠ "x-mitre-collection" := by
        intro h; exact hpre o' (by simp) (by rw [ho', h])
      simp only [List.cons_append, findCollection, ho', if_neg hne]
      exact ih (fun o ho => hpre o (by simp [ho]))

/-! ## Lemmas about the aggregation loop -/

theorem dedup_from_append (acc : List String) (l1 l2 : List String) :
    dedup_from acc (l1 ++ l2) = dedup_from (dedup_from acc l1) l2 :=
  List.foldl_append ..

/-- Success-case closed form of the aggregation loop: when every object has
a `type` and every non-`marking-definition` object has `id` and `modified`,
the loop completes, printing exactly the `created_by_ref`-conflict
diagnostics and producing the input accumulator with its three mutable
fields extended as described by the specification-side recursions. -/
theorem process_objects_ok (objs : List StixObject) :
    ∀ (raw : StixObject) (cs : List ContentEntry) (ms : List String) (cb : String),
    raw.x_mitre_contents = some cs → raw.object_marking_refs = some ms →
    raw.created_by_ref = some cb →
    (∀ o ∈ objs, o.type.isSome) →
    (∀ o ∈ objs, o.type ≠ some "marking-definition" → o.id.isSome ∧ o.modified.isSome) →
    process_objects raw objs =
      ((cbr_conflicts cb objs).map (fun p => Diag.noteMultipleCreatedByRef p.1 p.2),
       Except.ok (some { raw with
         x_mitre_contents := some (cs ++ spec_contents objs)
         object_marking_refs := some (dedup_from ms (flat_markings objs))
         created_by_ref := some (spec_cbr cb objs) })) := by
  induction objs with
  | nil =>
    intro raw cs ms cb h1 h2 h3 _ _
    rcases raw with ⟨f1, f2, f3, f4, f5, f6, f7, f8, f9, f10, f11, f12, f13⟩
    simp_all [process_objects, spec_contents, flat_markings, spec_cbr, cbr_conflicts, dedup_from]
  | cons o rest ih =>
    intro raw cs ms cb h1 h2 h3 hty hid
    have hty' : ∀ o' ∈ rest, o'.type.isSome := fun o' ho' => hty o' (by simp [ho'])
    have hid' : ∀ o' ∈ rest, o'.type ≠ some "marking-definition" →
        o'.id.isSome ∧ o'.modified.isSome := fun o' ho' => hid o' (by simp [ho'])
    obtain ⟨t, hot⟩ := Option.isSome_iff_exists.1 (hty o (by simp))
    rcases raw with ⟨r1, r2, r3, r4, r5, r6, r7, r8, r9, r10, r11, r12, r13⟩
    obtain rfl : r12 = some cs := h1
    obtain rfl : r11 = some ms := h2
    obtain rfl : r8 = some cb := h3
    by_cases hm : t = "marking-definition"
    · rcases o with ⟨o1, o2, o3, o4, o5, o6, o7, o8, o9, o10, o11, o12, o13⟩
      obtain rfl : o1 = some t := hot
      subst hm
      simpa [process_objects, spec_contents, flat_markings, spec_cbr, cbr_conflicts] using
        ih _ cs ms cb rfl rfl rfl hty' hid'
    · have homark : o.type ≠ some "marking-definition" := by rw [hot]; simpa using hm
      obtain ⟨hi, hmo⟩ := hid o (by simp) homark
      obtain ⟨i, hoi⟩ := Option.isSome_iff_exists.1 hi
      obtain ⟨m, hom⟩ := Option.isSome_iff_exists.1 hmo
      rcases o with ⟨o1, o2, o3, o4, o5, o6, o7, o8, o9, o10, o11, o12, o13⟩
      obtain rfl : o1 = some t := hot
      obtain rfl : o2 = some i := hoi
      obtain rfl : o10 = some m := hom
      cases o11 with
      | none =>
        cases o8 with
        | none =>
          have H := ih ⟨r1, r2, r3, r4, r5, r6, r7, some cb, r9, r10, some ms,
              some (cs ++ [⟨i, m⟩]), r13⟩ (cs ++ [⟨i, m⟩]) ms cb rfl rfl rfl hty' hid'
          rw [List.append_assoc, List.singleton_append] at H
          simp [process_objects, spec_contents, flat_markings, spec_cbr, cbr_conflicts, hm,
            dedup_from] at H ⊢
          exact H
        | some c =>
          by_cases hc1 : c = cb
          · have H := ih ⟨r1, r2, r3, r4, r5, r6, r7, some cb, r9, r10, some ms,
                some (cs ++ [⟨i, m⟩]), r13⟩ (cs ++ [⟨i, m⟩]) ms cb rfl rfl rfl hty' hid'
            rw [List.append_assoc, List.singleton_append] at H
            simp [process_objects, spec_contents, flat_markings, spec_cbr, cbr_conflicts, hm,
              hc1, dedup_from] at H ⊢
            exact H
          · by_cases hc2 : cb = ""
            · have hc1' : ¬c = "" := by simpa [hc2] using hc1
              have H := ih ⟨r1, r2, r3, r4, r5, r6, r7, some c, r9, r10, some ms,
                  some (cs ++ [⟨i, m⟩]), r13⟩ (cs ++ [⟨i, m⟩]) ms c rfl rfl rfl hty' hid'
              rw [List.append_assoc, List.singleton_append] at H
              simp [process_objects, spec_contents, flat_markings, spec_cbr, cbr_conflicts, hm,
                hc1, hc1', hc2, dedup_from] at H ⊢
              exact H
            · have H := ih ⟨r1, r2, r3, r4, r5, r6, r7, some cb, r9, r10, some ms,
                  some (cs ++ [⟨i, m⟩]), r13⟩ (cs ++ [⟨i, m⟩]) ms cb rfl rfl rfl hty' hid'
              rw [List.append_assoc, List.singleton_append] at H
              simp [process_objects, spec_contents, flat_markings, spec_cbr, cbr_conflicts, hm,
                hc1, hc2, dedup_from] at H ⊢
              exact ⟨by rw [H], by rw [H]⟩
      | some omrs =>
        cases o8 with
        | none =>
          have H := ih ⟨r1, r2, r3, r4, r5, r6, r7, some cb, r9, r10, some (dedup_from ms omrs),
              some (cs ++ [⟨i, m⟩]), r13⟩ (cs ++ [⟨i, m⟩]) (dedup_from ms omrs) cb
            rfl rfl rfl hty' hid'
          rw [List.append_assoc, List.singleton_append] at H
          simp [process_objects, spec_contents, flat_markings, spec_cbr, cbr_conflicts, hm,
            dedup_from_append] at H ⊢
          exact H
        | some c =>
          by_cases hc1 : c = cb
          · have H := ih ⟨r1, r2, r3, r4, r5, r6, r7, some cb, r9, r10, some (dedup_from ms omrs),
                some (cs ++ [⟨i, m⟩]), r13⟩ (cs ++ [⟨i, m⟩]) (dedup_from ms omrs) cb
              rfl rfl rfl hty' hid'
            rw [List.append_assoc, List.singleton_append] at H
            simp [process_objects, spec_contents, flat_markings, spec_cbr, cbr_conflicts, hm,
              hc1, dedup_from_append] at H ⊢
            exact H
          · by_cases hc2 : cb = ""
            · have hc1' : ¬c = "" := by simpa [hc2] using hc1
              have H := ih ⟨r1, r2, r3, r4, r5, r6, r7, some c, r9, r10, some (dedup_from ms omrs),
                  some (cs ++ [⟨i, m⟩]), r13⟩ (cs ++ [⟨i, m⟩]) (dedup_from ms omrs) c
                rfl rfl rfl hty' hid'
              rw [List.append_assoc, List.singleton_append] at H
              simp [process_objects, spec_contents, flat_markings, spec_cbr, cbr_conflicts, hm,
                hc1, hc1', hc2, dedup_from_append] at H ⊢
              exact H
            · have H := ih ⟨r1, r2, r3, r4, r5, r6, r7, some cb, r9, r10, some (dedup_from ms omrs),
                  some (cs ++ [⟨i, m⟩]), r13⟩ (cs ++ [⟨i, m⟩]) (dedup_from ms omrs) cb
                rfl rfl rfl hty' hid'
              rw [List.append_assoc, List.singleton_append] at H
              simp [process_objects, spec_contents, flat_markings, spec_cbr, cbr_conflicts, hm,
                hc1, hc2, dedup_from_append] at H ⊢
              exact ⟨by rw [H], by rw [H]⟩

/-- Failure-case of the aggregation loop: if some non-`marking-definition`
object lacks `id` or `modified` (and every object has a `type`), the loop
returns the `None` abort, with a diagnostic naming an offending object and
its missing field. -/
theorem process_objects_none (objs : List StixObject) :
    ∀ raw : StixObject,
    (∀ o ∈ objs, o.type.isSome) →
    (∃ o ∈ objs, o.type ≠ some "marking-definition" ∧ (o.id = none ∨ o.modified = none)) →
    ∃ ds, process_objects raw objs = (ds, Except.ok none) ∧
      ∃ o key, Diag.errMissingField o key ∈ ds ∧ o ∈ objs ∧
        o.type ≠ some "marking-definition" ∧
        ((key = "id" ∧ o.id = none) ∨ (key = "modified" ∧ o.modified = none)) := by
  induction objs with
  | nil => intro raw _ hbad; simp at hbad
  | cons o rest ih =>
    intro raw hty hbad
    have hty' : ∀ o' ∈ rest, o'.type.isSome := fun o' ho' => hty o' (by simp [ho'])
    obtain ⟨t, hot⟩ := Option.isSome_iff_exists.1 (hty o (by simp))
    by_cases hm : t = "marking-definition"
    · have homark : o.type = some "marking-definition" := by rw [hot, hm]
      have hbad' : ∃ o' ∈ rest, o'.type ≠ some "marking-definition" ∧
          (o'.id = none ∨ o'.modified = none) := by
        rcases hbad with ⟨o', ho', hne, hmiss⟩
        rcases List.mem_cons.1 ho' with rfl | hmem
        · exact absurd homark hne
        · exact ⟨o', hmem, hne, hmiss⟩
      obtain ⟨ds, hds, o', key, hmem, hin, hne, hkey⟩ := ih raw hty' hbad'
      refine ⟨ds, ?_, o', key, hmem, by simp [hin], hne, hkey⟩
      simp [process_objects, hot, hm, hds]
    · have homark : o.type ≠ some "marking-definition" := by
        rw [hot]; intro h; exact hm (Option.some_injective _ h)
      by_cases hbadhead : o.id = none ∨ o.modified = none
      · refine ⟨[Diag.errMissingField o (if o.id.isNone then "id" else "modified")], ?_,
          o, if o.id.isNone then "id" else "modified", by simp, by simp, homark, ?_⟩
        · rcases hbadhead with hid | hmo
          · simp [process_objects, hot, hm, hid]
          · cases hid : o.id with
            | none => simp [process_objects, hot, hm, hid]
            | some iv => simp [process_objects, hot, hm, hid, hmo]
        · rcases hbadhead with hid | hmo
          · exact Or.inl ⟨by simp [hid], hid⟩
          · cases hid : o.id with
            | none => exact Or.inl ⟨by simp [hid], rfl⟩
            | some iv => exact Or.inr ⟨by simp [hid], hmo⟩
      · push_neg at hbadhead
        obtain ⟨hid, hmo⟩ := hbadhead
        obtain ⟨iv, hiv⟩ := Option.ne_none_iff_exists'.1 hid
        obtain ⟨mv, hmv⟩ := Option.ne_none_iff_exists'.1 hmo
        have hbad' : ∃ o' ∈ rest, o'.type ≠ some "marking-definition" ∧
            (o'.id = none ∨ o'.modified = none) := by
          rcases hbad with ⟨o', ho', hne, hmiss⟩
          rcases List.mem_cons.1 ho' with rfl | hmem
          · rcases hmiss with h | h
            · exact absurd h (by simp [hiv])
            · exact absurd h (by simp [hmv])
          · exact ⟨o', hmem, hne, hmiss⟩
        rcases raw with ⟨r1, r2, r3, r4, r5, r6, r7, r8, r9, r10, r11, r12, r13⟩
        rcases o with ⟨o1, o2, o3, o4, o5, o6, o7, o8, o9, o10, o11, o12, o13⟩
        obtain rfl : o1 = some t := hot
        obtain rfl : o2 = some iv := hiv
        obtain rfl : o10 = some mv := hmv
        cases o11 with
        | none =>
          cases o8 with
          | none =>
            obtain ⟨ds, hds, o', key, hmem, hin, hne, hkey⟩ :=
              ih ⟨r1, r2, r3, r4, r5, r6, r7, r8, r9, r10, r11,
                some (r12.getD [] ++ [⟨iv, mv⟩]), r13⟩ hty' hbad'
            refine ⟨ds, ?_, o', key, hmem, by simp [hin], hne, hkey⟩
            simp [process_objects, hm, hds]
          | some c =>
            by_cases hcnd : c = r8.getD ""
            · obtain ⟨ds, hds, o', key, hmem, hin, hne, hkey⟩ :=
                ih ⟨r1, r2, r3, r4, r5, r6, r7, r8, r9, r10, r11,
                  some (r12.getD [] ++ [⟨iv, mv⟩]), r13⟩ hty' hbad'
              refine ⟨ds, ?_, o', key, hmem, by simp [hin], hne, hkey⟩
              simp [process_objects, hm, hcnd, hds]
            · by_cases hemp : r8.getD "" = ""
              · have hcnd' : ¬c = "" := by simpa [hemp] using hcnd
                obtain ⟨ds, hds, o', key, hmem, hin, hne, hkey⟩ :=
                  ih ⟨r1, r2, r3, r4, r5, r6, r7, some c, r9, r10, r11,
                    some (r12.getD [] ++ [⟨iv, mv⟩]), r13⟩ hty' hbad'
                refine ⟨ds, ?_, o', key, hmem, by simp [hin], hne, hkey⟩
                simp [process_objects, hm, hcnd, hcnd', hemp, hds]
              · obtain ⟨ds, hds, o', key, hmem, hin, hne, hkey⟩ :=
                  ih ⟨r1, r2, r3, r4, r5, r6, r7, r8, r9, r10, r11,
                    some (r12.getD [] ++ [⟨iv, mv⟩]), r13⟩ hty' hbad'
                refine ⟨Diag.noteMultipleCreatedByRef (r8.getD "") c :: ds, ?_, o', key,
                  by simp [hmem], by simp [hin], hne, hkey⟩
                simp [process_objects, hm, hcnd, hemp, hds]
        | some omrs =>
          cases o8 with
          | none =>
            obtain ⟨ds, hds, o', key, hmem, hin, hne, hkey⟩ :=
              ih ⟨r1, r2, r3, r4, r5, r6, r7, r8, r9, r10,
                some (dedup_from (r11.getD []) omrs),
                some (r12.getD [] ++ [⟨iv, mv⟩]), r13⟩ hty' hbad'
            refine ⟨ds, ?_, o', key, hmem, by simp [hin], hne, hkey⟩
            simp [process_objects, hm, hds]
          | some c =>
            by_cases hcnd : c = r8.getD ""
            · obtain ⟨ds, hds, o', key, hmem, hin, hne, hkey⟩ :=
                ih ⟨r1, r2, r3, r4, r5, r6, r7, r8, r9, r10,
                  some (dedup_from (r11.getD []) omrs),
                  some (r12.getD [] ++ [⟨iv, mv⟩]), r13⟩ hty' hbad'
              refine ⟨ds, ?_, o', key, hmem, by simp [hin], hne, hkey⟩
              simp [process_objects, hm, hcnd, hds]
            · by_cases hemp : r8.getD "" = ""
              · have hcnd' : ¬c = "" := by simpa [hemp] using hcnd
                obtain ⟨ds, hds, o', key, hmem, hin, hne, hkey⟩ :=
                  ih ⟨r1, r2, r3, r4, r5, r6, r7, some c, r9, r10,
                    some (dedup_from (r11.getD []) omrs),
                    some (r12.getD [] ++ [⟨iv, mv⟩]), r13⟩ hty' hbad'
                refine ⟨ds, ?_, o', key, hmem, by simp [hin], hne, hkey⟩
                simp [process_objects, hm, hcnd, hcnd', hemp, hds]
              · obtain ⟨ds, hds, o', key, hmem, hin, hne, hkey⟩ :=
                  ih ⟨r1, r2, r3, r4, r5, r6, r7, r8, r9, r10,
                    some (dedup_from (r11.getD []) omrs),
                    some (r12.getD [] ++ [⟨iv, mv⟩]), r13⟩ hty' hbad'
                refine ⟨Diag.noteMultipleCreatedByRef (r8.getD "") c :: ds, ?_, o', key,
                  by simp [hmem], by simp [hin], hne, hkey⟩
                simp [process_objects, hm, hcnd, hemp, hds]

theorem dedup_from_cons (acc : List String) (x : String) (xs : List String) :
    dedup_from acc (x :: xs) = dedup_from (dedup_insert acc x) xs := rfl

theorem mem_dedup_insert {acc : List String} {x m : String} :
    m ∈ dedup_insert acc x ↔ m ∈ acc ∨ m = x := by
  by_cases h : x ∈ acc
  · simp only [dedup_insert, if_pos h]
    constructor
    · exact Or.inl
    · rintro (hm | rfl)
      · exact hm
      · exact h
  · simp [dedup_insert, if_neg h]

theorem nodup_dedup_insert {acc : List String} (x : String) (h : acc.Nodup) :
    (dedup_insert acc x).Nodup := by
  by_cases hx : x ∈ acc
  · simpa [dedup_insert, hx] using h
  · simp [dedup_insert, hx, List.nodup_append, h]

theorem mem_dedup_from (l : List String) : ∀ (acc : List String) (m : String),
    m ∈ dedup_from acc l ↔ m ∈ acc ∨ m ∈ l := by
  induction l with
  | nil => intro acc m; simp [dedup_from]
  | cons x xs ih =>
    intro acc m
    rw [dedup_from_cons, ih, mem_dedup_insert]
    simp [or_assoc]

theorem nodup_dedup_from (l : List String) : ∀ (acc : List String), acc.Nodup →
    (dedup_from acc l).Nodup := by
  induction l with
  | nil => intro acc h; simpa [dedup_from] using h
  | cons x xs ih =>
    intro acc h
    rw [dedup_from_cons]
    exact ih _ (nodup_dedup_insert x h)

theorem mem_flat_markings (objs : List StixObject) (m : String) :
    m ∈ flat_markings objs ↔
      ∃ o ∈ objs, o.type ≠ some "marking-definition" ∧ m ∈ o.object_marking_refs.getD [] := by
  induction objs with
  | nil => simp [flat_markings]
  | cons o rest ih =>
    by_cases hm : o.type = some "marking-definition"
    · rw [show flat_markings (o :: rest) = flat_markings rest from by simp [flat_markings, hm], ih]
      constructor
      · rintro ⟨o', ho', hne, hmem⟩; exact ⟨o', by simp [ho'], hne, hmem⟩
      · rintro ⟨o', ho', hne, hmem⟩
        rcases List.mem_cons.1 ho' with rfl | hmem'
        · exact absurd hm hne
        · exact ⟨o', hmem', hne, hmem⟩
    · rw [show flat_markings (o :: rest) =
          o.object_marking_refs.getD [] ++ flat_markings rest from by simp [flat_markings, hm]]
      rw [List.mem_append, ih]
      constructor
      · rintro (hmem | ⟨o', ho', hne, hmem⟩)
        · exact ⟨o, by simp, hm, hmem⟩
        · exact ⟨o', by simp [ho'], hne, hmem⟩
      · rintro ⟨o', ho', hne, hmem⟩
        rcases List.mem_cons.1 ho' with rfl | hmem'
        · exact Or.inl hmem
        · exact Or.inr ⟨o', hmem', hne, hmem⟩

theorem spec_cbr_of_ne (objs : List StixObject) : ∀ {cur : String}, cur ≠ "" →
    spec_cbr cur objs = cur := by
  induction objs with
  | nil => intro cur _; rfl
  | cons o rest ih =>
    intro cur h
    by_cases hm : o.type = some "marking-definition"
    · rw [show spec_cbr cur (o :: rest) = spec_cbr cur rest from by simp [spec_cbr, hm]]
      exact ih h
    · cases hc : o.created_by_ref with
      | none =>
        rw [show spec_cbr cur (o :: rest) = spec_cbr cur rest from by simp [spec_cbr, hm, hc]]
        exact ih h
      | some c =>
        rw [show spec_cbr cur (o :: rest) = spec_cbr cur rest from by simp [spec_cbr, hm, hc, h]]
        exact ih h

theorem spec_cbr_empty (objs : List StixObject) :
    spec_cbr "" objs = first_created_by_ref objs := by
  induction objs with
  | nil => rfl
  | cons o rest ih =>
    by_cases hm : o.type = some "marking-definition"
    · simp [spec_cbr, first_created_by_ref, hm, ih]
    · cases hc : o.created_by_ref with
      | none => simp [spec_cbr, first_created_by_ref, hm, hc, ih]
      | some c =>
        by_cases hce : c = ""
        · simp [spec_cbr, first_created_by_ref, hm, hc, hce, ih]
        · simp [spec_cbr, first_created_by_ref, hm, hc, hce, spec_cbr_of_ne rest hce]

theorem cbr_conflicts_mem (objs : List StixObject) :
    ∀ (cur c : String), c ≠ "" → c ≠ spec_cbr cur objs →
    (∃ o ∈ objs, o.type ≠ some "marking-definition" ∧ o.created_by_ref = some c) →
    (spec_cbr cur objs, c) ∈ cbr_conflicts cur objs := by
  induction objs with
  | nil => intro cur c _ _ h; simp at h
  | cons o rest ih =>
    intro cur c hc hne hex
    by_cases hm : o.type = some "marking-definition"
    · have hex' : ∃ o' ∈ rest, o'.type ≠ some "marking-definition" ∧
          o'.created_by_ref = some c := by
        rcases hex with ⟨o', ho', hne', hcbr'⟩
        rcases List.mem_cons.1 ho' with rfl | hmem
        · exact absurd hm hne'
        · exact ⟨o', hmem, hne', hcbr'⟩
      have hs : spec_cbr cur (o :: rest) = spec_cbr cur rest := by simp [spec_cbr, hm]
      have hcf : cbr_conflicts cur (o :: rest) = cbr_conflicts cur rest := by
        simp [cbr_conflicts, hm]
      rw [hs, hcf]
      exact ih cur c hc (hs ▸ hne) hex'
    · cases hcbr : o.created_by_ref with
      | none =>
        have hex' : ∃ o' ∈ rest, o'.type ≠ some "marking-definition" ∧
            o'.created_by_ref = some c := by
          rcases hex with ⟨o', ho', hne', hcbr'⟩
          rcases List.mem_cons.1 ho' with rfl | hmem
          · rw [hcbr] at hcbr'; exact absurd hcbr' (by simp)
          · exact ⟨o', hmem, hne', hcbr'⟩
        have hs : spec_cbr cur (o :: rest) = spec_cbr cur rest := by simp [spec_cbr, hm, hcbr]
        have hcf : cbr_conflicts cur (o :: rest) = cbr_conflicts cur rest := by
          simp [cbr_conflicts, hm, hcbr]
        rw [hs, hcf]
        exact ih cur c hc (hs ▸ hne) hex'
      | some c0 =>
        by_cases hcur : cur = ""
        · subst hcur
          by_cases hc0 : c0 = ""
          · subst hc0
            have hs : spec_cbr "" (o :: rest) = spec_cbr "" rest := by simp [spec_cbr, hm, hcbr]
            have hcf : cbr_conflicts "" (o :: rest) = cbr_conflicts "" rest := by
              simp [cbr_conflicts, hm, hcbr]
            have hex' : ∃ o' ∈ rest, o'.type ≠ some "marking-definition" ∧
                o'.created_by_ref = some c := by
              rcases hex with ⟨o', ho', hne', hcbr'⟩
              rcases List.mem_cons.1 ho' with rfl | hmem
              · rw [hcbr] at hcbr'
                exact absurd (Option.some_injective _ hcbr').symm hc
              · exact ⟨o', hmem, hne', hcbr'⟩
            rw [hs, hcf]
            exact ih "" c hc (hs ▸ hne) hex'
          · have hs : spec_cbr "" (o :: rest) = spec_cbr c0 rest := by
              simp [spec_cbr, hm, hcbr, hc0]
            have hcf : cbr_conflicts "" (o :: rest) = cbr_conflicts c0 rest := by
              simp [cbr_conflicts, hm, hcbr, hc0]
            have hs0 : spec_cbr c0 rest = c0 := spec_cbr_of_ne rest hc0
            have hex' : ∃ o' ∈ rest, o'.type ≠ some "marking-definition" ∧
                o'.created_by_ref = some c := by
              rcases hex with ⟨o', ho', hne', hcbr'⟩
              rcases List.mem_cons.1 ho' with rfl | hmem
              · rw [hcbr] at hcbr'
                have : c0 = c := Option.some_injective _ hcbr'
                rw [hs, hs0] at hne
                exact absurd this.symm hne
              · exact ⟨o', hmem, hne', hcbr'⟩
            rw [hs, hcf]
            exact ih c0 c hc (hs ▸ hne) hex'
        · have hsc : spec_cbr cur (o :: rest) = cur := spec_cbr_of_ne _ hcur
          have hsr : spec_cbr cur rest = cur := spec_cbr_of_ne _ hcur
          by_cases hcc0 : c0 = cur
          · have hs : spec_cbr cur (o :: rest) = spec_cbr cur rest := by
              simp [spec_cbr, hm, hcbr, hcc0]
            have hcf : cbr_conflicts cur (o :: rest) = cbr_conflicts cur rest := by
              simp [cbr_conflicts, hm, hcbr, hcc0]
            have hex' : ∃ o' ∈ rest, o'.type ≠ some "marking-definition" ∧
                o'.created_by_ref = some c := by
              rcases hex with ⟨o', ho', hne', hcbr'⟩
              rcases List.mem_cons.1 ho' with rfl | hmem
              · rw [hcbr] at hcbr'
                have hcc : c0 = c := Option.some_injective _ hcbr'
                rw [hsc] at hne
                exact absurd (hcc0 ▸ hcc.symm) hne
              · exact ⟨o', hmem, hne', hcbr'⟩
            rw [hs, hcf]
            exact ih cur c hc (hs ▸ hne) hex'
          · have hcf : cbr_conflicts cur (o :: rest) = (cur, c0) :: cbr_conflicts cur rest := by
              simp [cbr_conflicts, hm, hcbr, hcc0, hcur]
            rw [hsc, hcf]
            by_cases hcc : c = c0
            · subst hcc
              exact List.mem_cons_self _ _
            · refine List.mem_cons_of_mem _ ?_
              have := ih cur c hc (by rw [hsr]; rw [hsc] at hne; exact hne) ?_
              · rwa [hsr] at this
              · rcases hex with ⟨o', ho', hne', hcbr'⟩
                rcases List.mem_cons.1 ho' with rfl | hmem
                · rw [hcbr] at hcbr'
                  exact absurd (Option.some_injective _ hcbr').symm hcc
                · exact ⟨o', hmem, hne', hcbr'⟩

theorem spec_contents_eq_filter_map (objs : List StixObject) :
    spec_contents objs =
      (objs.filter (fun o => decide (o.type ≠ some "marking-definition"))).map
        (fun o => { object_ref := o.id.getD "", object_modified := o.modified.getD "" }) := by
  induction objs with
  | nil => rfl
  | cons o rest ih =>
    by_cases hm : o.type = some "marking-definition" <;>
      simp [spec_contents, hm, ih, List.filter_cons]

/-- One iteration of the aggregation loop on a well-formed
non-`marking-definition` object only extends the accumulator fields and
possibly prints one conflict diagnostic; in particular the accumulator's
`type` is untouched. -/
theorem process_objects_cons_step (raw o : StixObject) (rest : List StixObject) (t : String)
    (hot : o.type = some t) (hm : t ≠ "marking-definition") (iv mv : String)
    (hoi : o.id = some iv) (hom : o.modified = some mv) :
    ∃ (raw2 : StixObject) (d0 : List Diag),
      process_objects raw (o :: rest) =
        (d0 ++ (process_objects raw2 rest).1, (process_objects raw2 rest).2) ∧
      raw2.type = raw.type := by
  rcases o with ⟨o1, o2, o3, o4, o5, o6, o7, o8, o9, o10, o11, o12, o13⟩
  obtain rfl : o1 = some t := hot
  obtain rfl : o2 = some iv := hoi
  obtain rfl : o10 = some mv := hom
  cases o11 with
  | none =>
    cases o8 with
    | none =>
      exact ⟨{ raw with
          x_mitre_contents := some (raw.x_mitre_contents.getD [] ++ [⟨iv, mv⟩]) }, [],
        by simp [process_objects, hm], rfl⟩
    | some c =>
      by_cases hcnd : c = raw.created_by_ref.getD ""
      · exact ⟨{ raw with
            x_mitre_contents := some (raw.x_mitre_contents.getD [] ++ [⟨iv, mv⟩]) }, [],
          by simp [process_objects, hm, hcnd], rfl⟩
      · by_cases hemp : raw.created_by_ref.getD "" = ""
        · have hcnd' : ¬c = "" := by simpa [hemp] using hcnd
          exact ⟨{ raw with
              created_by_ref := some c,
              x_mitre_contents := some (raw.x_mitre_contents.getD [] ++ [⟨iv, mv⟩]) }, [],
            by simp [process_objects, hm, hcnd, hcnd', hemp], rfl⟩
        · exact ⟨{ raw with
              x_mitre_contents := some (raw.x_mitre_contents.getD [] ++ [⟨iv, mv⟩]) },
            [Diag.noteMultipleCreatedByRef (raw.created_by_ref.getD "") c],
            by simp [process_objects, hm, hcnd, hemp], rfl⟩
  | some omrs =>
    cases o8 with
    | none =>
      exact ⟨{ raw with
          object_marking_refs := some (dedup_from (raw.object_marking_refs.getD []) omrs),
          x_mitre_contents := some (raw.x_mitre_contents.getD [] ++ [⟨iv, mv⟩]) }, [],
        by simp [process_objects, hm], rfl⟩
    | some c =>
      by_cases hcnd : c = raw.created_by_ref.getD ""
      · exact ⟨{ raw with
            object_marking_refs := some (dedup_from (raw.object_marking_refs.getD []) omrs),
            x_mitre_contents := some (raw.x_mitre_contents.getD [] ++ [⟨iv, mv⟩]) }, [],
          by simp [process_objects, hm, hcnd], rfl⟩
      · by_cases hemp : raw.created_by_ref.getD "" = ""
        · have hcnd' : ¬c = "" := by simpa [hemp] using hcnd
          exact ⟨{ raw with
              created_by_ref := some c,
              object_marking_refs := some (dedup_from (raw.object_marking_refs.getD []) omrs),
              x_mitre_contents := some (raw.x_mitre_contents.getD [] ++ [⟨iv, mv⟩]) }, [],
            by simp [process_objects, hm, hcnd, hcnd', hemp], rfl⟩
        · exact ⟨{ raw with
              object_marking_refs := some (dedup_from (raw.object_marking_refs.getD []) omrs),
              x_mitre_contents := some (raw.x_mitre_contents.getD [] ++ [⟨iv, mv⟩]) },
            [Diag.noteMultipleCreatedByRef (raw.created_by_ref.getD "") c],
            by simp [process_objects, hm, hcnd, hemp], rfl⟩

/-- Whatever the input, a successfully completed aggregation loop returns
an accumulator with the same `type` as the initial one (the loop never
writes the `type` key of `raw_collection`). -/
theorem process_objects_type (objs : List StixObject) :
    ∀ (raw : StixObject) (ds : List Diag) (rawF : StixObject),
      process_objects raw objs = (ds, Except.ok (some rawF)) → rawF.type = raw.type := by
  induction objs with
  | nil =>
    intro raw ds rawF h
    simp only [process_objects, Prod.mk.injEq, Except.ok.injEq, Option.some.injEq] at h
    rw [← h.2]
  | cons o rest ih =>
    intro raw ds rawF h
    cases hot : o.type with
    | none => simp [process_objects, hot] at h
    | some t =>
      by_cases hm : t = "marking-definition"
      · rw [show process_objects raw (o :: rest) = process_objects raw rest from by
          simp [process_objects, hot, hm]] at h
        exact ih raw ds rawF h
      · cases hoi : o.id with
        | none =>
          rcases o with ⟨o1, o2, o3, o4, o5, o6, o7, o8, o9, o10, o11, o12, o13⟩
          obtain rfl : o1 = some t := hot
          obtain rfl : o2 = none := hoi
          simp [process_objects, hm] at h
        | some iv =>
          cases hom : o.modified with
          | none =>
            rcases o with ⟨o1, o2, o3, o4, o5, o6, o7, o8, o9, o10, o11, o12, o13⟩
            obtain rfl : o1 = some t := hot
            obtain rfl : o2 = some iv := hoi
            obtain rfl : o10 = none := hom
            simp [process_objects, hm] at h
          | some mv =>
            obtain ⟨raw2, d0, heq, htype⟩ :=
              process_objects_cons_step raw o rest t hot hm iv mv hoi hom
            rw [heq] at h
            rcases hX : process_objects raw2 rest with ⟨ds', r2⟩
            rw [hX] at h
            have h2 : r2 = Except.ok (some rawF) := congrArg Prod.snd h
            exact (ih raw2 ds' rawF (hX.trans (by rw [h2]))).trans htype

/-- Closed form of a successful non-upgrading run: a bundle whose objects
all carry `type`, none of them a collection, whose content objects carry
`id` and `modified`, and whose `spec_version` is not `"2.0"`, yields the
version warning (unless `"2.1"`), the `created_by_ref` conflict notes, and
the new bundle with `built_collection` prepended. -/
theorem build_ok (upgrade : Bundle → Except String Bundle) (now : DateTime)
    (uuid : String) (bundle : Bundle) (name version : String) (description : Option String)
    (hty : ∀ o ∈ bundle.objects, o.type.isSome)
    (hnc : ∀ o ∈ bundle.objects, o.type ≠ some "x-mitre-collection")
    (hv : bundle.spec_version.getD "" ≠ "2.0")
    (hid : ∀ o ∈ bundle.objects, o.type ≠ some "marking-definition" →
      o.id.isSome ∧ o.modified.isSome) :
    stix_to_collection upgrade now uuid bundle name version description =
      ((if bundle.spec_version.getD "" = "2.1" then ([] : List Diag)
        else [Diag.errVersion (bundle.spec_version.getD "[NOT FOUND]")]) ++
          (cbr_conflicts "" bundle.objects).map
            (fun p => Diag.noteMultipleCreatedByRef p.1 p.2),
       Except.ok (some { bundle with
         objects := built_collection uuid name version (resolve_description description)
           (strftime_mitre now) bundle.objects :: bundle.objects })) := by
  have hfc := findCollection_eq_false bundle.objects hty hnc
  have hpo := process_objects_ok bundle.objects
    (init_collection uuid name version (resolve_description description) (strftime_mitre now))
    [] [] "" rfl rfl rfl hty hid
  simp [init_collection] at hpo
  by_cases h21 : bundle.spec_version.getD "" = "2.1"
  · simp [stix_to_collection, hfc, hv, h21, hpo, built_collection, init_collection]
  · simp [stix_to_collection, hfc, hv, h21, hpo, built_collection, init_collection]

/-! ## Heap lemmas for the non-mutation claim -/

theorem getD_append_lt (h l : List Bundle) (r : Nat) (hr : r < h.length) :
    (h ++ l).getD r default = h.getD r default := by
  simp [List.getD_eq_getElem?_getD, List.getElem?_append_left hr]

theorem getD_set_ne (h : List Bundle) (i r : Nat) (b : Bundle) (hne : i ≠ r) :
    (h.set i b).getD r default = h.getD r default := by
  simp [List.getD_eq_getElem?_getD, List.getElem?_set_ne hne]

theorem build_phase_getD (now : DateTime) (uuid name version : String)
    (description : Option String) (heap : List Bundle) (rw r : Nat) (hne : rw ≠ r) :
    ((build_phase now uuid name version description heap rw).1).getD r default =
      heap.getD r default := by
  rcases hp : process_objects (init_collection uuid name version
      (resolve_description description) (strftime_mitre now))
      ((heap.getD rw default).objects) with ⟨ds, res⟩
  simp only [List.getD_eq_getElem?_getD] at hp
  cases res with
  | error e => simp [build_phase, hp]
  | ok oraw =>
    cases oraw with
    | none => simp [build_phase, hp]
    | some rawF => simp [build_phase, hp, List.getElem?_set_ne hne]

/-- An inversion principle: whenever the function returns a bundle, that
bundle's objects scan immediately finds a collection object (either the
short-circuit returned a bundle whose scan succeeded with `True`, or the
built collection sits at position 0). -/
theorem stix_success_findCollection (upgrade : Bundle → Except String Bundle) (now : DateTime)
    (uuid : String) (bundle : Bundle) (name version : String) (description : Option String)
    (ds : List Diag) (out : Bundle)
    (h : stix_to_collection upgrade now uuid bundle name version description =
      (ds, Except.ok (some out))) :
    findCollection out.objects = Except.ok true := by
  cases hfc : findCollection bundle.objects with
  | error e => simp [stix_to_collection, hfc] at h
  | ok b =>
    cases b with
    | true =>
      have hout : bundle = out := by
        have hsnd := congrArg Prod.snd h
        simp [stix_to_collection, hfc] at hsnd
        exact hsnd
      rw [← hout]
      exact hfc
    | false =>
      by_cases hv : bundle.spec_version.getD "" = "2.0"
      · cases hu : upgrade bundle with
        | error e => simp [stix_to_collection, hfc, hv, hu] at h
        | ok wb2 =>
          rcases hp : process_objects (init_collection uuid name version
              (resolve_description description) (strftime_mitre now)) wb2.objects with ⟨ds3, res⟩
          cases res with
          | error e => simp [stix_to_collection, hfc, hv, hu, hp] at h
          | ok oraw =>
            cases oraw with
            | none => simp [stix_to_collection, hfc, hv, hu, hp] at h
            | some rawF =>
              have hout : { wb2 with objects := rawF :: wb2.objects } = out := by
                have hsnd := congrArg Prod.snd h
                simp [stix_to_collection, hfc, hv, hu, hp] at hsnd
                exact hsnd
              have htype : rawF.type = some "x-mitre-collection" :=
                (process_objects_type wb2.objects _ ds3 rawF hp).trans rfl
              rw [← hout]
              simp [findCollection, htype]
      · rcases hp : process_objects (init_collection uuid name version
            (resolve_description description) (strftime_mitre now)) bundle.objects with ⟨ds3, res⟩
        cases res with
        | error e => simp [stix_to_collection, hfc, hv, hp] at h
        | ok oraw =>
          cases oraw with
          | none => simp [stix_to_collection, hfc, hv, hp] at h
          | some rawF =>
            have hout : { bundle with objects := rawF :: bundle.objects } = out := by
              have hsnd := congrArg Prod.snd h
              simp [stix_to_collection, hfc, hv, hp] at hsnd
              exact hsnd
            have htype : rawF.type = some "x-mitre-collection" :=
              (process_objects_type bundle.objects _ ds3 rawF hp).trans rfl
            rw [← hout]
            simp [findCollection, htype]

/-! ## Claim theorems -/

/-- Claim C2: for every input bundle, invoking `stix_to_collection` leaves
the caller's original bundle value unchanged — in the heap model, the heap
cell `r` holding the caller's bundle is the same after the call, whichever
of the three results is returned; all construction work happens on the
deep-copied cell. -/
theorem C2_original_bundle_unchanged (upgrade : Bundle → Except String Bundle) (now : DateTime)
    (uuid : String) (heap : List Bundle) (r : Nat) (name version : String)
    (description : Option String) (hr : r < heap.length) :
    ((stix_to_collection_heap upgrade now uuid heap r name version description).1).getD r default
      = heap.getD r default := by
  cases hfc : findCollection ((heap.getD r default).objects) with
  | error e =>
    simp only [stix_to_collection_heap, hfc]
    exact getD_append_lt heap _ r hr
  | ok b =>
    cases b with
    | true =>
      simp only [stix_to_collection_heap, hfc]
      exact getD_append_lt heap _ r hr
    | false =>
      simp only [stix_to_collection_heap, hfc]
      by_cases hv : (heap.getD r default).spec_version.getD "" = "2.0"
      · rw [if_pos hv]
        cases hu : upgrade ((heap ++ [heap.getD r default]).getD heap.length default) with
        | error e =>
          simp only [hu]
          exact getD_append_lt heap _ r hr
        | ok wb2 =>
          simp only [hu]
          rw [build_phase_getD _ _ _ _ _ _ _ r (by simp; omega)]
          rw [getD_append_lt _ _ r (by simp; omega), getD_append_lt _ _ r hr]
      · rw [if_neg hv]
        rw [build_phase_getD _ _ _ _ _ _ _ r (by omega)]
        exact getD_append_lt heap _ r hr

/-- Claim C3: a bundle already containing an `x-mitre-collection` object
(and, per the data model of the specification, whose objects all carry a
`type`) is returned unchanged, before any spec-version upgrade; and
applying the function to any successfully returned bundle returns that
bundle unchanged, whatever environment and arguments the second call
uses (repeated application is a no-op). -/
theorem C3_idempotent_short_circuit (upgrade : Bundle → Except String Bundle) (now : DateTime)
    (uuid : String) (bundle : Bundle) (name version : String) (description : Option String) :
    ((∀ o ∈ bundle.objects, o.type.isSome) →
      (∃ o ∈ bundle.objects, o.type = some "x-mitre-collection") →
      stix_to_collection upgrade now uuid bundle name version description =
        ([], Except.ok (some bundle))) ∧
    (∀ (upgrade2 : Bundle → Except String Bundle) (now2 : DateTime) (uuid2 : String)
      (name2 version2 : String) (description2 : Option String) (ds : List Diag) (out : Bundle),
      stix_to_collection upgrade now uuid bundle name version description =
        (ds, Except.ok (some out)) →
      stix_to_collection upgrade2 now2 uuid2 out name2 version2 description2 =
        ([], Except.ok (some out))) := by
  constructor
  · intro hty hex
    simp [stix_to_collection, findCollection_eq_true bundle.objects hty hex]
  · intro upgrade2 now2 uuid2 name2 version2 description2 ds out h
    have hcoll := stix_success_findCollection upgrade now uuid bundle name version
      description ds out h
    simp [stix_to_collection, hcoll]

/-- Claim C1: for a bundle with no collection object (all objects carrying
a `type`, every content object carrying `id` and `modified`, and no 2.0
upgrade in play), the returned bundle is the input with the collection
object prepended as element 0 (all other objects follow in their original
order), and the collection's `x_mitre_contents` lists exactly one
`{object_ref, object_modified}` entry per non-`marking-definition` input
object, in input order. -/
theorem C1_contents_complete_ordered (upgrade : Bundle → Except String Bundle) (now : DateTime)
    (uuid : String) (bundle : Bundle) (name version : String) (description : Option String)
    (hty : ∀ o ∈ bundle.objects, o.type.isSome)
    (hnc : ∀ o ∈ bundle.objects, o.type ≠ some "x-mitre-collection")
    (hv : bundle.spec_version.getD "" ≠ "2.0")
    (hid : ∀ o ∈ bundle.objects, o.type ≠ some "marking-definition" →
      o.id.isSome ∧ o.modified.isSome) :
    ∃ (ds : List Diag) (raw : StixObject),
      stix_to_collection upgrade now uuid bundle name version description =
        (ds, Except.ok (some { bundle with objects := raw :: bundle.objects })) ∧
      raw.type = some "x-mitre-collection" ∧
      raw.x_mitre_contents = some
        ((bundle.objects.filter (fun o => decide (o.type ≠ some "marking-definition"))).map
          (fun o => { object_ref := o.id.getD "", object_modified := o.modified.getD "" })) := by
  refine ⟨_, built_collection uuid name version (resolve_description description)
    (strftime_mitre now) bundle.objects,
    build_ok upgrade now uuid bundle name version description hty hnc hv hid, rfl, ?_⟩
  simp [built_collection, spec_contents_eq_filter_map]

/-- Claim C4: a bundle with no collection whose objects include a
non-`marking-definition` object lacking `id` or `modified` makes the
function return the `None` sentinel — no bundle at all — after printing a
diagnostic that names an offending object and its missing field. -/
theorem C4_missing_field_aborts (upgrade : Bundle → Except String Bundle) (now : DateTime)
    (uuid : String) (bundle : Bundle) (name version : String) (description : Option String)
    (hty : ∀ o ∈ bundle.objects, o.type.isSome)
    (hnc : ∀ o ∈ bundle.objects, o.type ≠ some "x-mitre-collection")
    (hv : bundle.spec_version.getD "" ≠ "2.0")
    (hbad : ∃ o ∈ bundle.objects, o.type ≠ some "marking-definition" ∧
      (o.id = none ∨ o.modified = none)) :
    (stix_to_collection upgrade now uuid bundle name version description).2 =
      Except.ok none ∧
    ∃ (o : StixObject) (key : String),
      Diag.errMissingField o key ∈
        (stix_to_collection upgrade now uuid bundle name version description).1 ∧
      o ∈ bundle.objects ∧ o.type ≠ some "marking-definition" ∧
      ((key = "id" ∧ o.id = none) ∨ (key = "modified" ∧ o.modified = none)) := by
  obtain ⟨ds3, hds3, o, key, hmem, hin, hne, hkey⟩ :=
    process_objects_none bundle.objects
      (init_collection uuid name version (resolve_description description) (strftime_mitre now))
      hty hbad
  have hfc := findCollection_eq_false bundle.objects hty hnc
  constructor
  · simp [stix_to_collection, hfc, hv, hds3]
  · refine ⟨o, key, ?_, hin, hne, hkey⟩
    simp [stix_to_collection, hfc, hv, hds3, hmem]

/-- Claim C5: on a successful non-upgrading run, the collection's
`object_marking_refs` is the first-seen-order deduplication of the marking
references of the non-`marking-definition` objects in scan order: it has
no duplicates, and contains a reference iff some non-`marking-definition`
object carries it (references only on `marking-definition` objects are not
collected). -/
theorem C5_marking_refs_dedup (upgrade : Bundle → Except String Bundle) (now : DateTime)
    (uuid : String) (bundle : Bundle) (name version : String) (description : Option String)
    (hty : ∀ o ∈ bundle.objects, o.type.isSome)
    (hnc : ∀ o ∈ bundle.objects, o.type ≠ some "x-mitre-collection")
    (hv : bundle.spec_version.getD "" ≠ "2.0")
    (hid : ∀ o ∈ bundle.objects, o.type ≠ some "marking-definition" →
      o.id.isSome ∧ o.modified.isSome) :
    ∃ (ds : List Diag) (raw : StixObject),
      stix_to_collection upgrade now uuid bundle name version description =
        (ds, Except.ok (some { bundle with objects := raw :: bundle.objects })) ∧
      raw.object_marking_refs = some (dedup_from [] (flat_markings bundle.objects)) ∧
      (dedup_from [] (flat_markings bundle.objects)).Nodup ∧
      (∀ mr, mr ∈ dedup_from [] (flat_markings bundle.objects) ↔
        ∃ o ∈ bundle.objects, o.type ≠ some "marking-definition" ∧
          mr ∈ o.object_marking_refs.getD []) := by
  refine ⟨_, built_collection uuid name version (resolve_description description)
    (strftime_mitre now) bundle.objects,
    build_ok upgrade now uuid bundle name version description hty hnc hv hid, rfl,
    nodup_dedup_from _ [] (by simp), ?_⟩
  intro mr
  rw [mem_dedup_from, mem_flat_markings]
  simp

/-- Claim C6: on a successful non-upgrading run, the collection's
`created_by_ref` is the first non-empty `created_by_ref` seen among the
non-`marking-definition` objects in bundle order (empty string if none);
and for every other non-empty value carried by some such object, the
conflict diagnostic naming the kept first-seen value and the conflicting
value is printed, the run still succeeding (non-fatal). -/
theorem C6_created_by_ref_first_seen (upgrade : Bundle → Except String Bundle) (now : DateTime)
    (uuid : String) (bundle : Bundle) (name version : String) (description : Option String)
    (hty : ∀ o ∈ bundle.objects, o.type.isSome)
    (hnc : ∀ o ∈ bundle.objects, o.type ≠ some "x-mitre-collection")
    (hv : bundle.spec_version.getD "" ≠ "2.0")
    (hid : ∀ o ∈ bundle.objects, o.type ≠ some "marking-definition" →
      o.id.isSome ∧ o.modified.isSome) :
    ∃ (ds : List Diag) (raw : StixObject),
      stix_to_collection upgrade now uuid bundle name version description =
        (ds, Except.ok (some { bundle with objects := raw :: bundle.objects })) ∧
      raw.created_by_ref = some (first_created_by_ref bundle.objects) ∧
      (∀ c, c ≠ "" → c ≠ first_created_by_ref bundle.objects →
        (∃ o ∈ bundle.objects, o.type ≠ some "marking-definition" ∧
          o.created_by_ref = some c) →
        Diag.noteMultipleCreatedByRef (first_created_by_ref bundle.objects) c ∈ ds) := by
  refine ⟨_, built_collection uuid name version (resolve_description description)
    (strftime_mitre now) bundle.objects,
    build_ok upgrade now uuid bundle name version description hty hnc hv hid, ?_, ?_⟩
  · simp [built_collection, spec_cbr_empty]
  · intro c hc hne hex
    have hmem := cbr_conflicts_mem bundle.objects "" c hc
      (by rw [spec_cbr_empty]; exact hne) hex
    rw [spec_cbr_empty] at hmem
    have hmm := List.mem_map_of_mem (fun p => Diag.noteMultipleCreatedByRef p.1 p.2) hmem
    exact List.mem_append_right _ (by simpa using hmm)

/-- Claim C7: a `"2.0"` bundle with no collection whose upgrade step raises
makes the whole operation abort: the `[NOTE]` about the attempted upgrade
and the `[ERROR]` diagnostic carrying the underlying cause are printed,
and the `None` sentinel is returned — never a partial or upgraded
bundle. -/
theorem C7_upgrade_failure_aborts (upgrade : Bundle → Except String Bundle) (now : DateTime)
    (uuid : String) (bundle : Bundle) (name version : String) (description : Option String)
    (e : String)
    (hty : ∀ o ∈ bundle.objects, o.type.isSome)
    (hnc : ∀ o ∈ bundle.objects, o.type ≠ some "x-mitre-collection")
    (hv : bundle.spec_version.getD "" = "2.0")
    (hu : upgrade bundle = Except.error e) :
    stix_to_collection upgrade now uuid bundle name version description =
      ([Diag.note20upgrade, Diag.errUpgrade e], Except.ok none) := by
  simp [stix_to_collection, findCollection_eq_false bundle.objects hty hnc, hv, hu]

/-- Claim C8: a bundle whose `spec_version` is neither `"2.0"` nor `"2.1"`
(also when unset) gets the non-fatal unsupported-version diagnostic but is
otherwise processed exactly like the `"2.1"` path: no upgrade is invoked
(the result does not depend on the upgrade collaborator), and with
well-formed objects the same collection object is prepended as for the
same bundle restamped `"2.1"`. -/
theorem C8_unsupported_version_continues (upgrade1 upgrade2 : Bundle → Except String Bundle)
    (now : DateTime) (uuid : String) (bundle : Bundle) (name version : String)
    (description : Option String)
    (hty : ∀ o ∈ bundle.objects, o.type.isSome)
    (hnc : ∀ o ∈ bundle.objects, o.type ≠ some "x-mitre-collection")
    (hv0 : bundle.spec_version.getD "" ≠ "2.0")
    (hv1 : bundle.spec_version.getD "" ≠ "2.1")
    (hid : ∀ o ∈ bundle.objects, o.type ≠ some "marking-definition" →
      o.id.isSome ∧ o.modified.isSome) :
    ∃ (ds : List Diag) (raw : StixObject),
      stix_to_collection upgrade1 now uuid bundle name version description =
        (Diag.errVersion (bundle.spec_version.getD "[NOT FOUND]") :: ds,
         Except.ok (some { bundle with objects := raw :: bundle.objects })) ∧
      stix_to_collection upgrade2 now uuid { bundle with spec_version := some "2.1" }
          name version description =
        (ds, Except.ok (some { bundle with
          spec_version := some "2.1"
          objects := raw :: bundle.objects })) := by
  have h1 := build_ok upgrade1 now uuid bundle name version description hty hnc hv0 hid
  have h2 := build_ok upgrade2 now uuid { bundle with spec_version := some "2.1" }
    name version description (by simpa using hty) (by simpa using hnc) (by simp)
    (by simpa using hid)
  refine ⟨(cbr_conflicts "" bundle.objects).map
      (fun p => Diag.noteMultipleCreatedByRef p.1 p.2),
    built_collection uuid name version (resolve_description description)
      (strftime_mitre now) bundle.objects, ?_, ?_⟩
  · rw [h1]
    simp [hv1]
  · rw [h2]
    simp

/-- Claim C9 (code bug): the single generation timestamp is indeed used for
both `created` and `modified` and has the shape
`YYYY-MM-DDTHH:MM:SS.ffffffZ`, but it is formatted from `datetime.now()` —
the LOCAL wall-clock reading — with a literal `Z` (UTC) suffix, not from
the UTC clock as the specification states.  Evaluated in a UTC+1
environment (local clock 13:00 while UTC reads 12:00): both fields hold
the local-time string, which differs from the UTC-time string. -/
theorem C9_timestamp_local_not_utc :
    created_of_result (stix_to_collection okUpgrade sample_now "u0" w9_bundle "N" "1.0" none) =
      some (strftime_mitre sample_now) ∧
    modified_of_result (stix_to_collection okUpgrade sample_now "u0" w9_bundle "N" "1.0" none) =
      some (strftime_mitre sample_now) ∧
    strftime_mitre sample_now = "2026-01-01T13:00:00.000000Z" ∧
    strftime_mitre sample_now ≠ strftime_mitre sample_utc := by
  refine ⟨rfl, rfl, rfl, ?_⟩
  decide

/-- Claim C10, counterexample: a bundle that does contain an object lacking
`type` — preceded by a collection object — makes `stix_to_collection`
return a bundle (the short-circuit fires before the scan reaches the
typeless object), so it is not true of *every* such bundle that an
unhandled `KeyError` is raised. -/
theorem C10_counterexample :
    stix_to_collection okUpgrade sample_now "u0" w10_bundle "N" "1.0" none =
      ([], Except.ok (some w10_bundle)) := by
  rfl

/-- Claim C10, amended: whenever an object lacking `type` occurs before any
`x-mitre-collection`-typed object (in particular in any collection-free
bundle with a typeless object), the unguarded `obj["type"]` lookup of the
collection-scan loop raises an unhandled `KeyError`: the function returns
neither a bundle nor the `None` sentinel. -/
theorem C10_missing_type_keyerror (upgrade : Bundle → Except String Bundle) (now : DateTime)
    (uuid : String) (bundle : Bundle) (name version : String) (description : Option String)
    (l1 l2 : List StixObject) (o : StixObject)
    (hsplit : bundle.objects = l1 ++ o :: l2) (hno : o.type = none)
    (hpre : ∀ o' ∈ l1, o'.type ≠ some "x-mitre-collection") :
    stix_to_collection upgrade now uuid bundle name version description =
      ([], Except.error (PyExn.keyError "type")) := by
  have h := findCollection_keyError l1 l2 o hno hpre
  rw [← hsplit] at h
  simp [stix_to_collection, h]

/-! ## Witnesses: the claim theorems applied at concrete inputs -/

theorem C1_witness :
    ∃ (ds : List Diag) (raw : StixObject),
      stix_to_collection okUpgrade sample_now "u0" w1_bundle "N" "1.0" none =
        (ds, Except.ok (some { w1_bundle with objects := raw :: w1_bundle.objects })) ∧
      raw.type = some "x-mitre-collection" ∧
      raw.x_mitre_contents = some
        ((w1_bundle.objects.filter (fun o => decide (o.type ≠ some "marking-definition"))).map
          (fun o => { object_ref := o.id.getD "", object_modified := o.modified.getD "" })) :=
  C1_contents_complete_ordered okUpgrade sample_now "u0" w1_bundle "N" "1.0" none
    (by decide) (by decide) (by decide) (by decide)

theorem C2_witness :
    ((stix_to_collection_heap okUpgrade sample_now "u0" [w1_bundle] 0 "N" "1.0" none).1).getD
        0 default = [w1_bundle].getD 0 default :=
  C2_original_bundle_unchanged okUpgrade sample_now "u0" [w1_bundle] 0 "N" "1.0" none
    (by decide)

theorem C3_witness :
    stix_to_collection okUpgrade sample_now "u0" w3_bundle "N" "1.0" none =
      ([], Except.ok (some w3_bundle)) ∧
    stix_to_collection failUpgrade sample_utc "u1" w3_bundle "M" "2.0" (some "d") =
      ([], Except.ok (some w3_bundle)) := by
  have h := C3_idempotent_short_circuit okUpgrade sample_now "u0" w3_bundle "N" "1.0" none
  have h1 := h.1 (by decide) (by decide)
  exact ⟨h1, h.2 failUpgrade sample_utc "u1" "M" "2.0" (some "d") [] w3_bundle h1⟩

theorem C4_witness :
    (stix_to_collection okUpgrade sample_now "u0" w4_bundle "N" "1.0" none).2 =
      Except.ok none ∧
    ∃ (o : StixObject) (key : String),
      Diag.errMissingField o key ∈
        (stix_to_collection okUpgrade sample_now "u0" w4_bundle "N" "1.0" none).1 ∧
      o ∈ w4_bundle.objects ∧ o.type ≠ some "marking-definition" ∧
      ((key = "id" ∧ o.id = none) ∨ (key = "modified" ∧ o.modified = none)) :=
  C4_missing_field_aborts okUpgrade sample_now "u0" w4_bundle "N" "1.0" none
    (by decide) (by decide) (by decide) (by decide)

theorem C5_witness :
    (∃ (ds : List Diag) (raw : StixObject),
      stix_to_collection okUpgrade sample_now "u0" w5_bundle "N" "1.0" none =
        (ds, Except.ok (some { w5_bundle with objects := raw :: w5_bundle.objects })) ∧
      raw.object_marking_refs = some (dedup_from [] (flat_markings w5_bundle.objects)) ∧
      (dedup_from [] (flat_markings w5_bundle.objects)).Nodup ∧
      (∀ mr, mr ∈ dedup_from [] (flat_markings w5_bundle.objects) ↔
        ∃ o ∈ w5_bundle.objects, o.type ≠ some "marking-definition" ∧
          mr ∈ o.object_marking_refs.getD [])) ∧
    dedup_from [] (flat_markings w5_bundle.objects) = ["m1", "m2"] :=
  ⟨C5_marking_refs_dedup okUpgrade sample_now "u0" w5_bundle "N" "1.0" none
    (by decide) (by decide) (by decide) (by decide), by decide⟩

theorem C6_witness :
    (∃ (ds : List Diag) (raw : StixObject),
      stix_to_collection okUpgrade sample_now "u0" w6_bundle "N" "1.0" none =
        (ds, Except.ok (some { w6_bundle with objects := raw :: w6_bundle.objects })) ∧
      raw.created_by_ref = some (first_created_by_ref w6_bundle.objects) ∧
      (∀ c, c ≠ "" → c ≠ first_created_by_ref w6_bundle.objects →
        (∃ o ∈ w6_bundle.objects, o.type ≠ some "marking-definition" ∧
          o.created_by_ref = some c) →
        Diag.noteMultipleCreatedByRef (first_created_by_ref w6_bundle.objects) c ∈ ds)) ∧
    first_created_by_ref w6_bundle.objects = "a" :=
  ⟨C6_created_by_ref_first_seen okUpgrade sample_now "u0" w6_bundle "N" "1.0" none
    (by decide) (by decide) (by decide) (by decide), by decide⟩

theorem C7_witness :
    stix_to_collection failUpgrade sample_now "u0" w7_bundle "N" "1.0" none =
      ([Diag.note20upgrade, Diag.errUpgrade "step failure"], Except.ok none) :=
  C7_upgrade_failure_aborts failUpgrade sample_now "u0" w7_bundle "N" "1.0" none
    "step failure" (by decide) (by decide) (by decide) (by rfl)

theorem C8_witness :
    ∃ (ds : List Diag) (raw : StixObject),
      stix_to_collection failUpgrade sample_now "u0" w8_bundle "N" "1.0" none =
        (Diag.errVersion (w8_bundle.spec_version.getD "[NOT FOUND]") :: ds,
         Except.ok (some { w8_bundle with objects := raw :: w8_bundle.objects })) ∧
      stix_to_collection okUpgrade sample_now "u0" { w8_bundle with spec_version := some "2.1" }
          "N" "1.0" none =
        (ds, Except.ok (some { w8_bundle with
          spec_version := some "2.1"
          objects := raw :: w8_bundle.objects })) :=
  C8_unsupported_version_continues failUpgrade okUpgrade sample_now "u0" w8_bundle "N" "1.0"
    none (by decide) (by decide) (by decide) (by decide) (by decide)

theorem C10_witness :
    stix_to_collection okUpgrade sample_now "u0" w10b_bundle "N" "1.0" none =
      ([], Except.error (PyExn.keyError "type")) :=
  C10_missing_type_keyerror okUpgrade sample_now "u0" w10b_bundle "N" "1.0" none
    [] [] w_untyped_obj (by rfl) (by rfl) (by decide)

end StixToCollection
